import Mathlib

/-!
Shallow embedding of the robo-birder notification decision engine and scheduler:
the decision logic of `src/robo_birder/notify.py`, the season handling of
`src/robo_birder/config.py`, the counting queries of `src/robo_birder/database.py`,
and the watcher / cron-schedule logic of `src/robo_birder/scheduler.py`.

Modelling conventions:
- Wall-clock instants (Python `time.time()` floats and `datetime.now()` used as a
  cron anchor) are modelled as `Int`; only their ordering and differences matter
  to the code.
- Detection confidences (floats in the source) are modelled as `Int`; the code
  only compares them with configured thresholds.
- Calendar timestamps stored in the database (`begin_time`) and season/year
  boundaries are modelled as year/month/day triples ordered lexicographically,
  which is the order the SQL ISO-string comparisons implement.
- Python dicts keyed by strings are modelled as association lists; assignment is
  remove-then-cons, and lookup takes the first matching key.
- The SQL queries of `database.py` run over a model of the `notes` table given as
  a list of rows; `ORDER BY id` is a stable sort, modelled with `List.insertionSort`.
- External collaborators (the alert dispatcher, the `croniter` library, the
  per-detection fetch while the table may change underneath the watcher) are
  modelled as explicit parameters: dispatch outcomes are booleans, `croniter`
  is a function `String → Int → Option Int` returning the next trigger.
-/

/-- Calendar timestamp (the part of a `datetime` the decision logic compares). -/
structure DT where
  year : Nat
  month : Nat
  day : Nat
deriving DecidableEq

/-- Lexicographic order on calendar timestamps; this is the chronological order
that the SQL comparisons on `begin_time` implement. -/
abbrev dtLe (a b : DT) : Prop :=
  a.year < b.year ∨
    (a.year = b.year ∧ (a.month < b.month ∨ (a.month = b.month ∧ a.day ≤ b.day)))

/-- A row of the `notes` table (the columns the decision logic reads). -/
structure Note where
  id : Nat
  scientific_name : String
  begin_time : DT
deriving DecidableEq

/-- The `Detection` dataclass of `database.py`. -/
structure Detection where
  id : Nat
  date : String
  time : String
  begin_time : DT
  scientific_name : String
  common_name : String
  confidence : Int
  clip_name : Option String := none
  species_code : Option String := none
deriving DecidableEq

/-- The `notify_on` sub-dictionary of the `new_species` config block. -/
structure NotifyOn where
  first_ever : Bool
  first_of_year : Bool
  first_of_season : Bool
deriving DecidableEq

/-- The `new_species` config block (defaults already resolved, as `dict.get` does). -/
structure NewSpeciesConfig where
  enabled : Bool
  min_confidence : Int
  notify_on : NotifyOn
deriving DecidableEq

/-- The `realtime` config block (defaults already resolved, as `dict.get` does). -/
structure RealtimeConfig where
  enabled : Bool
  min_confidence : Int
  species_whitelist : List String
  species_blacklist : List String
  cooldown_minutes : Int
deriving DecidableEq

/-- The `seasons` config block: (start_month, start_day) per season, with the
defaults of `config.get_current_season` already resolved. -/
structure SeasonsConfig where
  spring : Nat × Nat := (3, 20)
  summer : Nat × Nat := (6, 21)
  fall : Nat × Nat := (9, 22)
  winter : Nat × Nat := (12, 21)
deriving DecidableEq

/-- The parts of the configuration dictionary the decision logic reads. -/
structure Config where
  new_species : NewSpeciesConfig
  realtime : RealtimeConfig
  seasons : SeasonsConfig
deriving DecidableEq

/-- `database.get_species_count`: `COUNT(*) FROM notes WHERE scientific_name = ?`. -/
def get_species_count (db : List Note) (scientific_name : String) : Nat :=
  (db.filter fun n => decide (n.scientific_name = scientific_name)).length

/-- `database.get_species_count_since`: count of rows of the species with
`begin_time >= since`, restricted to `id < before_id` when `before_id` is given. -/
def get_species_count_since (db : List Note) (scientific_name : String) (since : DT)
    (before_id : Option Nat) : Nat :=
  match before_id with
  | some bid =>
      (db.filter fun n =>
        decide (n.scientific_name = scientific_name ∧ dtLe since n.begin_time ∧ n.id < bid)).length
  | none =>
      (db.filter fun n =>
        decide (n.scientific_name = scientific_name ∧ dtLe since n.begin_time)).length

/-- `database.get_max_detection_id`: `MAX(id)` over the table, `0` when empty. -/
def get_max_detection_id (db : List Note) : Nat :=
  (db.map Note.id).foldl Nat.max 0

/-- `database.get_new_detection_ids`: `SELECT id WHERE id > ? ORDER BY id`. -/
def get_new_detection_ids (db : List Note) (after_id : Nat) : List Nat :=
  List.insertionSort (fun a b => a ≤ b) ((db.map Note.id).filter fun i => decide (after_id < i))

/-- Lexicographic order on (month, day) pairs, the tuple order Python uses to
sort and to compare season boundaries. -/
abbrev pairLe (a b : Nat × Nat) : Prop := a.1 < b.1 ∨ (a.1 = b.1 ∧ a.2 ≤ b.2)

/-- One entry of the `boundaries` list of `get_current_season`:
`(start_month, start_day, season_name)`. -/
abbrev Boundary := Nat × Nat × String

/-- The (month, day) sort key of a boundary entry. -/
def boundaryKey (b : Boundary) : Nat × Nat := (b.1, b.2.1)

/-- The season name of a boundary entry. -/
def boundaryName (b : Boundary) : String := b.2.2

/-- The `boundaries` list built by `get_current_season`, in its construction order. -/
def seasonBoundaries (cfg : SeasonsConfig) : List Boundary :=
  [(cfg.spring.1, cfg.spring.2, "spring"),
   (cfg.summer.1, cfg.summer.2, "summer"),
   (cfg.fall.1, cfg.fall.2, "fall"),
   (cfg.winter.1, cfg.winter.2, "winter")]

/-- The comparison `boundaries.sort(key=(month, day))` sorts by. -/
def bdLe (a b : Boundary) : Prop := pairLe (boundaryKey a) (boundaryKey b)

instance : DecidableRel bdLe := fun a b => by
  unfold bdLe pairLe
  infer_instance

instance : IsTotal Boundary bdLe := ⟨by
  intro a b
  unfold bdLe pairLe
  omega⟩

instance : IsTrans Boundary bdLe := ⟨by
  intro a b c
  unfold bdLe pairLe
  omega⟩

/-- `config.get_current_season`: sort the boundary list by (month, day), default
to the season of the last sorted boundary, then take the season of the last
boundary not after today. -/
def get_current_season (cfg : SeasonsConfig) (month day : Nat) : String :=
  let sorted := List.insertionSort bdLe (seasonBoundaries cfg)
  let dflt := (sorted.getLast?.map boundaryName).getD "winter"
  sorted.foldl
    (fun cur b => if pairLe (boundaryKey b) (month, day) then boundaryName b else cur) dflt

/-- The (start_month, start_day) pair `config.get_season_start_date` resolves for
a season name (with the same defaults). -/
def seasonStartPair (cfg : SeasonsConfig) (season : String) : Nat × Nat :=
  if season = "spring" then cfg.spring
  else if season = "summer" then cfg.summer
  else if season = "fall" then cfg.fall
  else cfg.winter

/-- `config.get_season_start_date`: the start of a season in a given year. -/
def get_season_start_date (cfg : SeasonsConfig) (season : String) (year : Nat) : DT :=
  ⟨year, (seasonStartPair cfg season).1, (seasonStartPair cfg season).2⟩

/-- The cooldown store: species name to last-notified wall-clock time. -/
abbrev CooldownStore := List (String × Int)

/-- Dictionary lookup in an association list (first matching key). -/
def lookupKey {α : Type} (l : List (String × α)) (k : String) : Option α :=
  (l.find? fun kv => decide (kv.1 = k)).map Prod.snd

/-- Dictionary assignment `d[k] = v` on an association list. -/
def dictInsert {α : Type} (k : String) (v : α) (l : List (String × α)) : List (String × α) :=
  (k, v) :: l.filter fun kv => decide (kv.1 ≠ k)

/-- `notify.is_on_cooldown`: a nonpositive cooldown disables the check; otherwise
the species is on cooldown when the time since its recorded timestamp (default 0)
is under `cooldown_minutes * 60` seconds. -/
def is_on_cooldown (species : String) (cooldown_minutes : Int) (cooldowns : CooldownStore)
    (tnow : Int) : Bool :=
  if cooldown_minutes ≤ 0 then false
  else decide (tnow - ((lookupKey cooldowns species).getD 0) < cooldown_minutes * 60)

/-- `notify.set_cooldown`: record the current time for the species, then drop
every entry at or past 24 hours of age in the same write. -/
def set_cooldown (species : String) (cooldowns : CooldownStore) (tnow : Int) : CooldownStore :=
  (dictInsert species tnow cooldowns).filter fun kv => decide (tnow - 86400 < kv.2)

/-- `notify.check_new_species`: the new-species decision track, returning the
pair (is_new, reason). -/
def check_new_species (d : Detection) (cfg : Config) (db : List Note) (now : DT) :
    Bool × Option String :=
  let ns := cfg.new_species
  if ¬ns.enabled then (false, none)
  else if d.confidence < ns.min_confidence then (false, none)
  else
    let sci := d.scientific_name
    if ns.notify_on.first_ever ∧ get_species_count db sci = 1 then
      (true, some "First ever sighting!")
    else if ns.notify_on.first_of_year ∧
        get_species_count_since db sci ⟨now.year, 1, 1⟩ (some d.id) = 0 then
      (true, some ("First sighting of " ++ toString now.year ++ "!"))
    else
      let current_season := get_current_season cfg.seasons now.month now.day
      let year := if current_season = "winter" ∧ now.month < 3 then now.year - 1 else now.year
      let season_start := get_season_start_date cfg.seasons current_season year
      if ns.notify_on.first_of_season ∧
          get_species_count_since db sci season_start (some d.id) = 0 then
        (true, some ("First sighting of " ++ current_season.capitalize ++ "!"))
      else (false, none)

/-- `notify.should_notify_realtime`: the realtime decision track. -/
def should_notify_realtime (d : Detection) (cfg : Config) (cooldowns : CooldownStore)
    (tnow : Int) : Bool :=
  let rt := cfg.realtime
  if ¬rt.enabled then false
  else if d.confidence < rt.min_confidence then false
  else if rt.species_whitelist ≠ [] ∧ d.common_name ∉ rt.species_whitelist ∧
      d.scientific_name ∉ rt.species_whitelist then false
  else if d.common_name ∈ rt.species_blacklist ∨ d.scientific_name ∈ rt.species_blacklist then
    false
  else if is_on_cooldown d.scientific_name rt.cooldown_minutes cooldowns tnow then false
  else true

/-- The `DecisionResult` of the specification: what `handle_detection` decides
for one detection before dispatching. -/
inductive DecisionResult where
  | NoMatch : DecisionResult
  | NewSpecies (reason : String) : DecisionResult
  | Realtime : DecisionResult
deriving DecidableEq

/-- The decision structure of `notify.handle_detection`: the new-species track
is consulted first; only when it does not fire is the realtime track consulted. -/
def decide_detection (d : Detection) (cfg : Config) (db : List Note) (cooldowns : CooldownStore)
    (now : DT) (tnow : Int) : DecisionResult :=
  let res := check_new_species d cfg db now
  if res.1 then DecisionResult.NewSpecies (res.2.getD "")
  else if should_notify_realtime d cfg cooldowns tnow then DecisionResult.Realtime
  else DecisionResult.NoMatch

/-- One dispatched alert: which webhook call `handle_detection` makes. -/
inductive AlertKind where
  | new_species (reason : String) : AlertKind
  | detection_alert : AlertKind
deriving DecidableEq

/-- `notify.handle_detection` with the dispatcher outcomes made explicit
(`send_new_ok` / `send_det_ok` model the boolean results of the webhook calls).
Returns (notification_sent, resulting cooldown store, alerts dispatched). -/
def handle_detection (d : Detection) (cfg : Config) (db : List Note) (cooldowns : CooldownStore)
    (now : DT) (tnow : Int) (send_new_ok send_det_ok : Bool) :
    Bool × CooldownStore × List AlertKind :=
  let res := check_new_species d cfg db now
  if res.1 then
    if send_new_ok then
      (true, set_cooldown d.scientific_name cooldowns tnow, [AlertKind.new_species (res.2.getD "")])
    else (false, cooldowns, [AlertKind.new_species (res.2.getD "")])
  else if should_notify_realtime d cfg cooldowns tnow then
    if send_det_ok then
      (true, set_cooldown d.scientific_name cooldowns tnow, [AlertKind.detection_alert])
    else (false, cooldowns, [AlertKind.detection_alert])
  else (false, cooldowns, [])

/-- The body of the per-id loop of `DetectionWatcher.check_new_detections` acting
on the processed counter: a found detection whose handling does not raise counts
as processed; a missing row or a raising handler leaves the counter unchanged. -/
def process_one (fetch : Nat → Option Detection) (handle_ok : Nat → Bool)
    (processed : Nat) (i : Nat) : Nat :=
  match fetch i with
  | some _ => if handle_ok i then processed + 1 else processed
  | none => processed

/-- `DetectionWatcher.check_new_detections`: on a query failure return 0 and keep
the watermark; otherwise walk the new ids in ascending order, advancing the
watermark to each id whether or not it resolved or its handling raised.
Returns (processed count, new watermark). `fetch` models `get_detection_by_id`
(the table can change between the id query and the fetch) and `handle_ok`
models whether `handle_detection` completed without raising. -/
def check_new_detections (db : List Note) (query_ok : Bool) (fetch : Nat → Option Detection)
    (handle_ok : Nat → Bool) (last_id : Nat) : Nat × Nat :=
  if query_ok then
    (get_new_detection_ids db last_id).foldl
      (fun acc i => (process_one fetch handle_ok acc.1 i, i)) (0, last_id)
  else (0, last_id)

/-- `DetectionWatcher.__init__` via `_get_max_id`: the watermark starts at the
current maximum detection id, or 0 when the max-id query fails. -/
def watcher_init_last_id (db : List Note) (query_ok : Bool) : Nat :=
  if query_ok then get_max_detection_id db else 0

/-- One entry of the `summaries` config list (defaults already resolved:
`name` defaults to "unnamed" and `cron` to "0 8 * * *"). -/
structure SummaryConfig where
  name : String
  enabled : Bool
  cron : String
deriving DecidableEq

/-- The job schedule table `next_runs`: job name to next trigger time. -/
abbrev ScheduleTable := List (String × Int)

/-- The loop body of `SummaryScheduler._initialize_schedules`: skip disabled
summaries, schedule an enabled one at its next cron trigger, and drop it when
the cron expression is invalid. -/
def schedule_step (cron_next : String → Int → Option Int) (now : Int)
    (next_runs : ScheduleTable) (s : SummaryConfig) : ScheduleTable :=
  if s.enabled then
    match cron_next s.cron now with
    | some t => dictInsert s.name t next_runs
    | none => next_runs
  else next_runs

/-- `SummaryScheduler._initialize_schedules`: rebuild the table from scratch,
scheduling each enabled summary at its next cron trigger and dropping entries
whose cron expression is invalid. `cron_next` models `croniter(...).get_next`,
returning `none` when the expression is invalid. -/
def init_schedules (summaries : List SummaryConfig) (now : Int)
    (cron_next : String → Int → Option Int) : ScheduleTable :=
  summaries.foldl (schedule_step cron_next now) []

/-- `SummaryScheduler._run_summary` restricted to its effect on the schedule
table: the job body runs first and any exception it raises is caught
(`body_ok` models its outcome and is not consulted for scheduling); then the
next run is recomputed, and on an invalid cron expression the job is removed
from the table. -/
def run_summary (name : String) (summaries : List SummaryConfig) (next_runs : ScheduleTable)
    (now : Int) (cron_next : String → Int → Option Int) (body_ok : Bool) : ScheduleTable :=
  match summaries.find? fun s => decide (s.name = name) with
  | none => next_runs
  | some s =>
      match cron_next s.cron now with
      | some t => dictInsert name t next_runs
      | none => next_runs.filter fun kv => decide (kv.1 ≠ name)

/-- Maximum-key selection among the boundary entries satisfying `p`, preferring
later entries on equal keys. This is the reference selection the specification
describes ("the season with the latest boundary (month, day) not after today"),
stated independently of the sort-then-scan implementation. -/
def pickLatest (p : Boundary → Prop) [DecidablePred p] : List Boundary → Option Boundary
  | [] => none
  | b :: rest =>
    match pickLatest p rest with
    | none => if p b then some b else none
    | some c => if p b ∧ ¬pairLe (boundaryKey b) (boundaryKey c) then some b else some c

/-- Modelled from the spec: the latest configured season boundary not after
today, or `none` when today precedes every boundary. -/
def latest_boundary_not_after (cfg : SeasonsConfig) (today : Nat × Nat) : Option Boundary :=
  pickLatest (fun b => pairLe (boundaryKey b) today) (seasonBoundaries cfg)

/-- Modelled from the spec (claim wording): the current season is the one with
the latest boundary not after today, and "winter applies by wrap-around when
today precedes all boundaries". -/
def claim_current_season (cfg : SeasonsConfig) (today : Nat × Nat) : String :=
  match latest_boundary_not_after cfg today with
  | some b => boundaryName b
  | none => "winter"

/-- Reference season determination (amended wording): the season with the latest
boundary not after today; when today precedes every boundary, the season with
the overall latest boundary applies (winter under the default boundaries). -/
def spec_current_season (cfg : SeasonsConfig) (today : Nat × Nat) : String :=
  match latest_boundary_not_after cfg today with
  | some b => boundaryName b
  | none =>
    match pickLatest (fun _ => True) (seasonBoundaries cfg) with
    | some b => boundaryName b
    | none => "winter"

/-- The season start used by the first_of_season window per the claim wording:
the claim season, with the year anchored to the previous calendar year when the
season is winter and the current month is before March. -/
def claim_season_start (cfg : SeasonsConfig) (now : DT) : DT :=
  let season := claim_current_season cfg (now.month, now.day)
  let year := if season = "winter" ∧ now.month < 3 then now.year - 1 else now.year
  get_season_start_date cfg season year

/-- The season start of the reference (amended) season determination, with the
same winter year-anchor rule. -/
def spec_season_start (cfg : SeasonsConfig) (now : DT) : DT :=
  let season := spec_current_season cfg (now.month, now.day)
  let year := if season = "winter" ∧ now.month < 3 then now.year - 1 else now.year
  get_season_start_date cfg season year

/-- Pairwise distinctness of the configured (month, day) boundary keys. -/
def distinctBoundaryKeys (cfg : SeasonsConfig) : Prop :=
  (seasonBoundaries cfg).Pairwise fun a b => boundaryKey a ≠ boundaryKey b

instance (cfg : SeasonsConfig) : Decidable (distinctBoundaryKeys cfg) := by
  unfold distinctBoundaryKeys
  infer_instance

/-- Concrete example detection used to exercise the decision logic. -/
def detEx : Detection :=
  { id := 7, date := "2026-01-10", time := "09:00", begin_time := ⟨2026, 1, 10⟩
    scientific_name := "Cardinalis cardinalis", common_name := "Northern Cardinal"
    confidence := 9 }

/-- Concrete example configuration: both tracks enabled, first_ever on. -/
def cfgEx : Config :=
  { new_species := { enabled := true, min_confidence := 5, notify_on := ⟨true, false, false⟩ }
    realtime := { enabled := true, min_confidence := 7, species_whitelist := []
                  species_blacklist := [], cooldown_minutes := 5 }
    seasons := {} }

/-- Concrete example table holding only the example detection. -/
def dbEx : List Note := [⟨7, "Cardinalis cardinalis", ⟨2026, 1, 10⟩⟩]

/-- Concrete cooldown store in which the example species was notified at time 990. -/
def storeEx : CooldownStore := [("Cardinalis cardinalis", 990)]

/-- Configuration for the season counterexample: winter configured to start on
February 1, so winter no longer carries the latest boundary of the year. -/
def cfgC8 : Config :=
  { new_species := { enabled := true, min_confidence := 0, notify_on := ⟨false, false, true⟩ }
    realtime := { enabled := false, min_confidence := 0, species_whitelist := []
                  species_blacklist := [], cooldown_minutes := 5 }
    seasons := ⟨(3, 20), (6, 21), (9, 22), (2, 1)⟩ }

/-- Table for the season counterexample: one earlier detection of the species in
June 2025, and the detection under consideration (id 10) already persisted. -/
def dbC8 : List Note :=
  [⟨3, "Turdus examplus", ⟨2025, 6, 1⟩⟩, ⟨10, "Turdus examplus", ⟨2026, 1, 15⟩⟩]

/-- The detection under consideration in the season counterexample. -/
def detC8 : Detection :=
  { id := 10, date := "2026-01-15", time := "08:00", begin_time := ⟨2026, 1, 15⟩
    scientific_name := "Turdus examplus", common_name := "Example Thrush", confidence := 1 }

/-- Configuration for the first_of_year scenario: default seasons, only the
first_of_year trigger enabled. -/
def cfgW : Config :=
  { new_species := { enabled := true, min_confidence := 0, notify_on := ⟨false, true, false⟩ }
    realtime := { enabled := false, min_confidence := 0, species_whitelist := []
                  species_blacklist := [], cooldown_minutes := 5 }
    seasons := {} }

/-- Table for the first_of_year scenario: one record of the species from the
previous year and the detection under consideration (id 5). -/
def dbW : List Note :=
  [⟨2, "Turdus examplus", ⟨2025, 5, 1⟩⟩, ⟨5, "Turdus examplus", ⟨2026, 1, 10⟩⟩]

/-- The detection under consideration in the first_of_year scenario. -/
def detW : Detection :=
  { id := 5, date := "2026-01-10", time := "07:30", begin_time := ⟨2026, 1, 10⟩
    scientific_name := "Turdus examplus", common_name := "Example Thrush", confidence := 1 }

theorem find?_filter_eq {α : Type} (p q : α → Bool) (l : List α)
    (h : ∀ x, p x = true → q x = true) :
    (l.filter q).find? p = l.find? p := by
  induction l with
  | nil => rfl
  | cons a t ih =>
    rcases hq : q a with _ | _
    · have hp : p a = false := by
        rcases hp : p a with _ | _
        · rfl
        · exact absurd (h a hp) (by simp [hq])
      simp [List.filter_cons, hq, List.find?_cons, hp, ih]
    · rcases hp : p a with _ | _
      · simp [List.filter_cons, hq, List.find?_cons, hp, ih]
      · simp [List.filter_cons, hq, List.find?_cons, hp]

theorem lookupKey_dictInsert_self {α : Type} (k : String) (v : α) (l : List (String × α)) :
    lookupKey (dictInsert k v l) k = some v := by
  simp [lookupKey, dictInsert, List.find?_cons]

theorem lookupKey_dictInsert_ne {α : Type} (k k' : String) (v : α) (l : List (String × α))
    (h : k' ≠ k) :
    lookupKey (dictInsert k v l) k' = lookupKey l k' := by
  unfold lookupKey dictInsert
  rw [List.find?_cons]
  have hk : (decide ((k, v).1 = k')) = false := by simp [Ne.symm h]
  rw [hk]
  rw [find?_filter_eq]
  intro x hx
  simp at hx ⊢
  intro hxk
  exact h (hxk ▸ hx).symm

theorem lookupKey_filter_ne {α : Type} (k n : String) (l : List (String × α)) (h : k ≠ n) :
    lookupKey (l.filter fun kv => decide (kv.1 ≠ n)) k = lookupKey l k := by
  unfold lookupKey
  rw [find?_filter_eq]
  intro x hx
  simp at hx ⊢
  rw [hx]
  exact h

theorem lookupKey_set_cooldown_self (s : String) (c : CooldownStore) (t : Int) :
    lookupKey (set_cooldown s c t) s = some t := by
  have hmem : (decide (t - 86400 < t)) = true := by
    simp only [decide_eq_true_eq]
    omega
  simp [set_cooldown, dictInsert, List.filter_cons, hmem, lookupKey, List.find?_cons]

theorem set_cooldown_fresh (s : String) (c : CooldownStore) (t : Int) :
    ∀ kv ∈ set_cooldown s c t, t - 86400 < kv.2 := by
  intro kv hkv
  unfold set_cooldown at hkv
  have := (List.mem_filter.1 hkv).2
  simpa using this

theorem foldl_pick_eq_filter_getLast {α : Type} (name : α → String) (p : α → Prop)
    [DecidablePred p] (l : List α) (init : String) :
    l.foldl (fun cur b => if p b then name b else cur) init =
      (((l.filter fun b => decide (p b)).getLast?).map name).getD init := by
  induction l using List.reverseRecOn with
  | nil => rfl
  | append_singleton t a ih =>
    rw [List.foldl_append, List.filter_append]
    by_cases hp : p a
    · simp [hp, List.getLast?_concat]
    · simp [hp, ih]

theorem foldl_advance_snd (f : Nat → Nat → Nat) (l : List Nat) (c w : Nat) :
    (l.foldl (fun acc i => (f acc.1 i, i)) (c, w)).2 = l.getLast?.getD w := by
  induction l using List.reverseRecOn with
  | nil => rfl
  | append_singleton t a ih =>
    rw [List.foldl_append]
    simp [List.getLast?_concat]

theorem mem_of_getLast?_eq {α : Type} {l : List α} {x : α} (hx : l.getLast? = some x) :
    x ∈ l := by
  rcases List.getLast?_eq_some_iff.1 hx with ⟨ys, rfl⟩
  simp

theorem getLast?_max_of_pairwise {α : Type} {r : α → α → Prop} {l : List α} {x : α}
    (hp : l.Pairwise r) (hx : l.getLast? = some x) :
    ∀ y ∈ l, y = x ∨ r y x := by
  rcases List.getLast?_eq_some_iff.1 hx with ⟨ys, rfl⟩
  rw [List.pairwise_append] at hp
  intro y hy
  rcases List.mem_append.1 hy with h | h
  · exact Or.inr (hp.2.2 y h x (by simp))
  · simp at h
    exact Or.inl h

theorem le_foldl_max_init (l : List Nat) (a : Nat) : a ≤ l.foldl Nat.max a := by
  induction l generalizing a with
  | nil => simp
  | cons b t ih => exact le_trans (Nat.le_max_left a b) (ih (Nat.max a b))

theorem mem_le_foldl_max (l : List Nat) (a : Nat) : ∀ x ∈ l, x ≤ l.foldl Nat.max a := by
  induction l generalizing a with
  | nil => simp
  | cons b t ih =>
    intro x hx
    rcases List.mem_cons.1 hx with rfl | hx
    · exact le_trans (Nat.le_max_right a x) (le_foldl_max_init t _)
    · exact ih _ x hx

theorem mem_get_new_detection_ids {db : List Note} {w i : Nat} :
    i ∈ get_new_detection_ids db w ↔ (i ∈ db.map Note.id ∧ w < i) := by
  unfold get_new_detection_ids
  rw [(List.perm_insertionSort _ _).mem_iff]
  simp [List.mem_filter]

theorem sorted_get_new_detection_ids (db : List Note) (w : Nat) :
    (get_new_detection_ids db w).Sorted (fun a b => a ≤ b) :=
  List.sorted_insertionSort _ _

theorem check_new_detections_snd (db : List Note) (fetch : Nat → Option Detection)
    (h : Nat → Bool) (w : Nat) :
    (check_new_detections db true fetch h w).2 = (get_new_detection_ids db w).getLast?.getD w := by
  unfold check_new_detections
  simp only [if_pos trivial, if_true]
  exact foldl_advance_snd (process_one fetch h) _ 0 w

theorem first_ever_msg_ne (s : String) :
    "First ever sighting!" ≠ "First sighting of " ++ s ++ "!" := by
  intro h
  have h2 := congrArg String.data h
  simp [String.data_append] at h2

theorem pairLe_refl (a : Nat × Nat) : pairLe a a := Or.inr ⟨rfl, le_refl _⟩

theorem pairLe_total (a b : Nat × Nat) : pairLe a b ∨ pairLe b a := by
  simp only [pairLe]
  omega

theorem pairLe_trans {a b c : Nat × Nat} (h1 : pairLe a b) (h2 : pairLe b c) : pairLe a c := by
  simp only [pairLe] at *
  omega

theorem pairLe_antisymm {a b : Nat × Nat} (h1 : pairLe a b) (h2 : pairLe b a) : a = b := by
  simp only [pairLe] at h1 h2
  cases a
  cases b
  simp only [Prod.mk.injEq]
  constructor <;> omega

theorem pickLatest_cons_of_none {p : Boundary → Prop} [DecidablePred p] {b : Boundary}
    {t : List Boundary} (hr : pickLatest p t = none) :
    pickLatest p (b :: t) = if p b then some b else none := by
  simp only [pickLatest, hr]

theorem pickLatest_cons_of_some {p : Boundary → Prop} [DecidablePred p] {b c : Boundary}
    {t : List Boundary} (hr : pickLatest p t = some c) :
    pickLatest p (b :: t) =
      if p b ∧ ¬pairLe (boundaryKey b) (boundaryKey c) then some b else some c := by
  simp only [pickLatest, hr]

theorem pickLatest_some_mem {p : Boundary → Prop} [DecidablePred p] {l : List Boundary}
    {x : Boundary} (h : pickLatest p l = some x) : x ∈ l ∧ p x := by
  induction l generalizing x with
  | nil => simp [pickLatest] at h
  | cons b t ih =>
    cases hr : pickLatest p t with
    | none =>
      rw [pickLatest_cons_of_none hr] at h
      by_cases hb : p b
      · rw [if_pos hb] at h
        injection h with h2
        subst h2
        exact ⟨by simp, hb⟩
      · rw [if_neg hb] at h
        cases h
    | some c =>
      rw [pickLatest_cons_of_some hr] at h
      by_cases hcond : p b ∧ ¬pairLe (boundaryKey b) (boundaryKey c)
      · rw [if_pos hcond] at h
        injection h with h2
        subst h2
        exact ⟨by simp, hcond.1⟩
      · rw [if_neg hcond] at h
        injection h with h2
        subst h2
        obtain ⟨hmem, hp⟩ := ih hr
        exact ⟨by simp [hmem], hp⟩

theorem pickLatest_none_iff {p : Boundary → Prop} [DecidablePred p] {l : List Boundary} :
    pickLatest p l = none ↔ ∀ y ∈ l, ¬p y := by
  induction l with
  | nil => simp [pickLatest]
  | cons b t ih =>
    cases hr : pickLatest p t with
    | none =>
      rw [pickLatest_cons_of_none hr]
      by_cases hb : p b
      · simp only [if_pos hb]
        constructor
        · intro h
          cases h
        · intro h
          exact absurd hb (h b (by simp))
      · simp only [if_neg hb]
        constructor
        · intro _ y hy
          rcases List.mem_cons.1 hy with rfl | hy
          · exact hb
          · exact (ih.1 hr) y hy
        · intro _
          trivial
    | some c =>
      rw [pickLatest_cons_of_some hr]
      obtain ⟨hcmem, hcp⟩ := pickLatest_some_mem hr
      constructor
      · intro h
        by_cases hcond : p b ∧ ¬pairLe (boundaryKey b) (boundaryKey c)
        · rw [if_pos hcond] at h
          cases h
        · rw [if_neg hcond] at h
          cases h
      · intro h
        exact absurd hcp (h c (by simp [hcmem]))

theorem pickLatest_max {p : Boundary → Prop} [DecidablePred p] {l : List Boundary}
    {x : Boundary} (h : pickLatest p l = some x) :
    ∀ y ∈ l, p y → pairLe (boundaryKey y) (boundaryKey x) := by
  induction l generalizing x with
  | nil => simp [pickLatest] at h
  | cons b t ih =>
    intro y hy hyp
    cases hr : pickLatest p t with
    | none =>
      rw [pickLatest_cons_of_none hr] at h
      by_cases hb : p b
      · rw [if_pos hb] at h
        injection h with h2
        subst h2
        rcases List.mem_cons.1 hy with rfl | hy
        · exact pairLe_refl _
        · exact absurd hyp ((pickLatest_none_iff.1 hr) y hy)
      · rw [if_neg hb] at h
        cases h
    | some c =>
      rw [pickLatest_cons_of_some hr] at h
      by_cases hcond : p b ∧ ¬pairLe (boundaryKey b) (boundaryKey c)
      · rw [if_pos hcond] at h
        injection h with h2
        subst h2
        rcases List.mem_cons.1 hy with rfl | hy
        · exact pairLe_refl _
        · have hyc := ih hr y hy hyp
          have hcb : pairLe (boundaryKey c) (boundaryKey b) := by
            rcases pairLe_total (boundaryKey c) (boundaryKey b) with h3 | h3
            · exact h3
            · exact absurd h3 hcond.2
          exact pairLe_trans hyc hcb
      · rw [if_neg hcond] at h
        injection h with h2
        subst h2
        rcases List.mem_cons.1 hy with rfl | hy
        · by_cases hble : pairLe (boundaryKey y) (boundaryKey c)
          · exact hble
          · exact absurd ⟨hyp, hble⟩ hcond
        · exact ih hr y hy hyp

theorem eq_of_boundaryKey_eq {l : List Boundary}
    (hd : l.Pairwise fun a b => boundaryKey a ≠ boundaryKey b) {x y : Boundary}
    (hx : x ∈ l) (hy : y ∈ l) (hk : boundaryKey x = boundaryKey y) : x = y := by
  induction l with
  | nil => cases hx
  | cons b t ih =>
    rw [List.pairwise_cons] at hd
    rcases List.mem_cons.1 hx with rfl | hx2 <;> rcases List.mem_cons.1 hy with rfl | hy2
    · rfl
    · exact absurd hk (hd.1 y hy2)
    · exact absurd hk.symm (hd.1 x hx2)
    · exact ih hd.2 hx2 hy2

theorem get_current_season_eq_spec (cfg : SeasonsConfig) (m d : Nat)
    (hdist : distinctBoundaryKeys cfg) :
    get_current_season cfg m d = spec_current_season cfg (m, d) := by
  classical
  have hd2 : (seasonBoundaries cfg).Pairwise fun a b => boundaryKey a ≠ boundaryKey b := hdist
  have hperm : (List.insertionSort bdLe (seasonBoundaries cfg)).Perm (seasonBoundaries cfg) :=
    List.perm_insertionSort bdLe (seasonBoundaries cfg)
  have hsort : (List.insertionSort bdLe (seasonBoundaries cfg)).Sorted bdLe :=
    List.sorted_insertionSort bdLe (seasonBoundaries cfg)
  have himpl : get_current_season cfg m d =
      ((((List.insertionSort bdLe (seasonBoundaries cfg)).filter
          fun b => decide (pairLe (boundaryKey b) (m, d))).getLast?).map boundaryName).getD
        (((List.insertionSort bdLe (seasonBoundaries cfg)).getLast?.map boundaryName).getD
          "winter") :=
    foldl_pick_eq_filter_getLast boundaryName (fun b => pairLe (boundaryKey b) (m, d)) _ _
  rw [himpl]
  by_cases hsat : ∃ b ∈ seasonBoundaries cfg, pairLe (boundaryKey b) (m, d)
  · obtain ⟨b0, hb0mem, hb0p⟩ := hsat
    have hb0s : b0 ∈ (List.insertionSort bdLe (seasonBoundaries cfg)).filter
        fun b => decide (pairLe (boundaryKey b) (m, d)) :=
      List.mem_filter.2 ⟨hperm.mem_iff.2 hb0mem, by simpa using hb0p⟩
    cases hlast : ((List.insertionSort bdLe (seasonBoundaries cfg)).filter
        fun b => decide (pairLe (boundaryKey b) (m, d))).getLast? with
    | none =>
      rw [List.getLast?_eq_none_iff] at hlast
      rw [hlast] at hb0s
      cases hb0s
    | some x =>
      have hxf := mem_of_getLast?_eq hlast
      have hxmem : x ∈ seasonBoundaries cfg := hperm.mem_iff.1 (List.mem_filter.1 hxf).1
      have hxp : pairLe (boundaryKey x) (m, d) := by
        simpa using (List.mem_filter.1 hxf).2
      have hxmax : ∀ y ∈ seasonBoundaries cfg, pairLe (boundaryKey y) (m, d) →
          pairLe (boundaryKey y) (boundaryKey x) := by
        intro y hy hyp
        have hys : y ∈ (List.insertionSort bdLe (seasonBoundaries cfg)).filter
            fun b => decide (pairLe (boundaryKey b) (m, d)) :=
          List.mem_filter.2 ⟨hperm.mem_iff.2 hy, by simpa using hyp⟩
        have hpair : ((List.insertionSort bdLe (seasonBoundaries cfg)).filter
            fun b => decide (pairLe (boundaryKey b) (m, d))).Pairwise bdLe :=
          hsort.filter _
        rcases getLast?_max_of_pairwise hpair hlast y hys with rfl | hle
        · exact pairLe_refl _
        · exact hle
      cases hpick : latest_boundary_not_after cfg (m, d) with
      | none =>
        unfold latest_boundary_not_after at hpick
        exact absurd hb0p ((pickLatest_none_iff.1 hpick) b0 hb0mem)
      | some x2 =>
        have hpick2 := hpick
        unfold latest_boundary_not_after at hpick2
        obtain ⟨hx2mem, hx2p⟩ := pickLatest_some_mem hpick2
        have hx2max := pickLatest_max hpick2
        have hkey : boundaryKey x = boundaryKey x2 :=
          pairLe_antisymm (hx2max x hxmem hxp) (hxmax x2 hx2mem hx2p)
        have hxx2 : x = x2 := eq_of_boundaryKey_eq hd2 hxmem hx2mem hkey
        simp [spec_current_season, hpick, hxx2]
  · push_neg at hsat
    have hfe : ((List.insertionSort bdLe (seasonBoundaries cfg)).filter
        fun b => decide (pairLe (boundaryKey b) (m, d))) = [] := by
      rw [List.filter_eq_nil_iff]
      intro b hb
      simpa using hsat b (hperm.mem_iff.1 hb)
    rw [hfe]
    have hne : List.insertionSort bdLe (seasonBoundaries cfg) ≠ [] := by
      intro h0
      have hlen := hperm.length_eq
      rw [h0] at hlen
      simp [seasonBoundaries] at hlen
    cases hglast : (List.insertionSort bdLe (seasonBoundaries cfg)).getLast? with
    | none =>
      rw [List.getLast?_eq_none_iff] at hglast
      exact absurd hglast hne
    | some g =>
      have hgmem : g ∈ seasonBoundaries cfg := hperm.mem_iff.1 (mem_of_getLast?_eq hglast)
      have hgmax : ∀ y ∈ seasonBoundaries cfg, pairLe (boundaryKey y) (boundaryKey g) := by
        intro y hy
        rcases getLast?_max_of_pairwise hsort hglast y (hperm.mem_iff.2 hy) with rfl | hle
        · exact pairLe_refl _
        · exact hle
      have hpick0 : latest_boundary_not_after cfg (m, d) = none := by
        unfold latest_boundary_not_after
        rw [pickLatest_none_iff]
        intro y hy
        exact hsat y hy
      cases hpickT : pickLatest (fun _ => True) (seasonBoundaries cfg) with
      | none =>
        exact absurd trivial
          ((pickLatest_none_iff.1 hpickT) (cfg.spring.1, cfg.spring.2, "spring")
            (by simp [seasonBoundaries]))
      | some g2 =>
        obtain ⟨hg2mem, _⟩ := pickLatest_some_mem hpickT
        have hg2max := pickLatest_max hpickT
        have hkey : boundaryKey g = boundaryKey g2 :=
          pairLe_antisymm (hg2max g hgmem trivial) (hgmax g2 hg2mem)
        have hgg2 : g = g2 := eq_of_boundaryKey_eq hd2 hgmem hg2mem hkey
        simp [spec_current_season, hpick0, hpickT, hgg2]

/-- C1: for every detection and configuration, the new-species check is evaluated
first; whenever it fires, the decision is `NewSpecies reason` and the only alert
dispatched is the new-species alert, for every cooldown-store state and wall
clock (so the realtime check is never consulted), and in general a single
detection never produces more than one alert. -/
theorem new_species_priority (d : Detection) (cfg : Config) (db : List Note) (now : DT)
    (h : (check_new_species d cfg db now).1 = true) :
    (∀ (c : CooldownStore) (t : Int),
        decide_detection d cfg db c now t =
          DecisionResult.NewSpecies ((check_new_species d cfg db now).2.getD "")) ∧
    (∀ (c : CooldownStore) (t : Int) (sN sD : Bool),
        (handle_detection d cfg db c now t sN sD).2.2 =
          [AlertKind.new_species ((check_new_species d cfg db now).2.getD "")]) ∧
    (∀ (d2 : Detection) (cfg2 : Config) (db2 : List Note) (c2 : CooldownStore) (now2 : DT)
        (t2 : Int) (sN sD : Bool),
        (handle_detection d2 cfg2 db2 c2 now2 t2 sN sD).2.2.length ≤ 1) := by
  refine ⟨?_, ?_, ?_⟩
  · intro c t
    simp [decide_detection, h]
  · intro c t sN sD
    simp only [handle_detection, h, if_true]
    cases sN <;> simp
  · intro d2 cfg2 db2 c2 now2 t2 sN sD
    simp only [handle_detection]
    cases hc : (check_new_species d2 cfg2 db2 now2).1 <;>
      simp only [Bool.false_eq_true, if_false, if_true] <;> split_ifs <;> simp

/-- Witness for C1 at the concrete example: the new-species check fires and the
decision is the new-species alert even though the species is on cooldown. -/
theorem new_species_priority_witness :
    decide_detection detEx cfgEx dbEx storeEx ⟨2026, 1, 10⟩ 1000 =
      DecisionResult.NewSpecies "First ever sighting!" := by
  have h := (new_species_priority detEx cfgEx dbEx ⟨2026, 1, 10⟩ (by decide)).1 storeEx 1000
  rw [h]
  decide

/-- C9: a detection below a track's min_confidence never matches that track: the
new-species check returns no match below `new_species.min_confidence`, the
realtime check returns no match below `realtime.min_confidence`, and a
detection below both thresholds yields `NoMatch`. -/
theorem below_threshold_no_match (d : Detection) (cfg : Config) (db : List Note)
    (c : CooldownStore) (now : DT) (t : Int) :
    (d.confidence < cfg.new_species.min_confidence →
      check_new_species d cfg db now = (false, none)) ∧
    (d.confidence < cfg.realtime.min_confidence →
      should_notify_realtime d cfg c t = false) ∧
    (d.confidence < cfg.new_species.min_confidence →
      d.confidence < cfg.realtime.min_confidence →
      decide_detection d cfg db c now t = DecisionResult.NoMatch) := by
  have h1 : d.confidence < cfg.new_species.min_confidence →
      check_new_species d cfg db now = (false, none) := by
    intro hlt
    simp only [check_new_species]
    split_ifs <;> rfl
  have h2 : d.confidence < cfg.realtime.min_confidence →
      should_notify_realtime d cfg c t = false := by
    intro hlt
    simp only [should_notify_realtime]
    split_ifs <;> rfl
  refine ⟨h1, h2, ?_⟩
  intro hn hr
  simp [decide_detection, h1 hn, h2 hr]

/-- Witness for C9: the example detection with confidence lowered below both
thresholds produces no match on either track and `NoMatch` overall. -/
theorem below_threshold_no_match_witness :
    decide_detection { detEx with confidence := 3 } cfgEx dbEx storeEx ⟨2026, 1, 10⟩ 1000 =
      DecisionResult.NoMatch :=
  (below_threshold_no_match { detEx with confidence := 3 } cfgEx dbEx storeEx
    ⟨2026, 1, 10⟩ 1000).2.2 (by decide) (by decide)

/-- C10: the new-species decision is independent of the cooldown store and wall
clock: for any two cooldown-store states (and times), the decision is
`NewSpecies r` for one exactly when it is for the other; concretely, a species
currently on realtime cooldown can still produce a NewSpecies alert. -/
theorem new_species_independent_of_cooldowns (d : Detection) (cfg : Config) (db : List Note)
    (now : DT) :
    (∀ (c1 c2 : CooldownStore) (t1 t2 : Int) (r : String),
        decide_detection d cfg db c1 now t1 = DecisionResult.NewSpecies r ↔
        decide_detection d cfg db c2 now t2 = DecisionResult.NewSpecies r) ∧
    (is_on_cooldown detEx.scientific_name cfgEx.realtime.cooldown_minutes storeEx 1000 = true ∧
      decide_detection detEx cfgEx dbEx storeEx ⟨2026, 1, 10⟩ 1000 =
        DecisionResult.NewSpecies "First ever sighting!") := by
  constructor
  · intro c1 c2 t1 t2 r
    simp only [decide_detection]
    cases h : (check_new_species d cfg db now).1
    · simp only [Bool.false_eq_true, if_false]
      split_ifs <;> simp
    · simp
  · exact ⟨by decide, by decide⟩

/-- C3: with the new_species block enabled, confidence at or above
min_confidence and the first_ever trigger enabled, the check returns the match
"First ever sighting!" exactly when the historical count of the species (the
detection itself already persisted and counted) equals 1. -/
theorem first_ever_iff_count_one (d : Detection) (cfg : Config) (db : List Note) (now : DT)
    (hEn : cfg.new_species.enabled = true)
    (hConf : ¬ d.confidence < cfg.new_species.min_confidence)
    (hFE : cfg.new_species.notify_on.first_ever = true) :
    check_new_species d cfg db now = (true, some "First ever sighting!") ↔
      get_species_count db d.scientific_name = 1 := by
  constructor
  · intro h
    by_contra hcount
    simp only [check_new_species, hEn, hFE, hConf] at h
    simp only [not_true_eq_false, if_false, if_neg hConf] at h
    rw [if_neg (by simp [hcount])] at h
    split_ifs at h
    all_goals injection h with ha hb
    all_goals
      first
      | exact Option.noConfusion hb
      | (injection hb with hc; exact first_ever_msg_ne _ hc.symm)
  · intro hcount
    simp [check_new_species, hEn, hConf, hFE, hcount]

/-- Witness for C3: the example detection is the only record of its species, so
the check fires with "First ever sighting!". -/
theorem first_ever_iff_count_one_witness :
    check_new_species detEx cfgEx dbEx ⟨2026, 1, 10⟩ = (true, some "First ever sighting!") :=
  (first_ever_iff_count_one detEx cfgEx dbEx ⟨2026, 1, 10⟩ rfl (by decide) rfl).mpr (by decide)

/-- C2: a species is on cooldown iff `cooldown_minutes > 0` and the time since
its recorded timestamp is under `cooldown_minutes * 60` seconds; a nonpositive
cooldown disables the check; after recording a dispatch for a species, a second
detection of that species within the window is never realtime-notified, and an
otherwise eligible one at or past the window is. -/
theorem cooldown_semantics (s : String) (N : Int) (c : CooldownStore) (t : Int) :
    (∀ v : Int, lookupKey c s = some v →
      (is_on_cooldown s N c t = true ↔ 0 < N ∧ t - v < N * 60)) ∧
    (N ≤ 0 → is_on_cooldown s N c t = false) ∧
    (∀ (d : Detection) (cfg : Config) (t2 : Int), d.scientific_name = s →
      cfg.realtime.cooldown_minutes = N → 0 < N → t2 - t < N * 60 →
      should_notify_realtime d cfg (set_cooldown s c t) t2 = false) ∧
    (∀ (d : Detection) (cfg : Config) (t2 : Int), d.scientific_name = s →
      cfg.realtime.cooldown_minutes = N → cfg.realtime.enabled = true →
      ¬ d.confidence < cfg.realtime.min_confidence →
      cfg.realtime.species_whitelist = [] → cfg.realtime.species_blacklist = [] →
      N * 60 ≤ t2 - t →
      should_notify_realtime d cfg (set_cooldown s c t) t2 = true) := by
  refine ⟨?_, ?_, ?_, ?_⟩
  · intro v hv
    by_cases hN : N ≤ 0
    · simp only [is_on_cooldown, if_pos hN, Bool.false_eq_true, false_iff]
      omega
    · simp only [is_on_cooldown, if_neg hN, hv, Option.getD_some, decide_eq_true_eq]
      omega
  · intro hN
    simp [is_on_cooldown, hN]
  · intro d cfg t2 hd hcd hN hlt
    have hcool : is_on_cooldown d.scientific_name cfg.realtime.cooldown_minutes
        (set_cooldown s c t) t2 = true := by
      rw [hd, hcd]
      unfold is_on_cooldown
      rw [if_neg (by omega)]
      simp [lookupKey_set_cooldown_self, hlt]
    simp only [should_notify_realtime]
    split_ifs <;> rfl
  · intro d cfg t2 hd hcd hEn hConf hwl hbl hge
    have hcool : is_on_cooldown d.scientific_name cfg.realtime.cooldown_minutes
        (set_cooldown s c t) t2 = false := by
      rw [hd, hcd]
      unfold is_on_cooldown
      by_cases hN0 : N ≤ 0
      · simp [hN0]
      · rw [if_neg hN0]
        simp only [lookupKey_set_cooldown_self, Option.getD_some, decide_eq_false_iff_not]
        omega
    simp [should_notify_realtime, hEn, hConf, hwl, hbl, hcool]

/-- Witness for C2: with a 5 minute cooldown recorded at time 1000, a second
detection at 1100 is suppressed and one at 1300 goes through; a nonpositive
cooldown never suppresses. -/
theorem cooldown_semantics_witness :
    is_on_cooldown "Cardinalis cardinalis" (-1) [] 0 = false ∧
    should_notify_realtime detEx cfgEx (set_cooldown "Cardinalis cardinalis" [] 1000) 1100
      = false ∧
    should_notify_realtime detEx cfgEx (set_cooldown "Cardinalis cardinalis" [] 1000) 1300
      = true := by
  refine ⟨?_, ?_, ?_⟩
  · exact (cooldown_semantics "Cardinalis cardinalis" (-1) [] 0).2.1 (by decide)
  · exact (cooldown_semantics "Cardinalis cardinalis" 5 [] 1000).2.2.1 detEx cfgEx 1100
      rfl rfl (by decide) (by decide)
  · exact (cooldown_semantics "Cardinalis cardinalis" 5 [] 1000).2.2.2 detEx cfgEx 1300
      rfl rfl rfl (by decide) rfl rfl (by decide)

/-- C4: when either track matches, a successful dispatch updates the cooldown
store by keying the detection's scientific name to the current time and pruning
every stale entry in the same write, while a failed dispatch leaves the store
unchanged (the matched track's dispatch outcome is the new-species one when the
new-species check fired, the realtime one otherwise). -/
theorem cooldown_update_on_dispatch (d : Detection) (cfg : Config) (db : List Note)
    (c : CooldownStore) (now : DT) (t : Int) (sN sD : Bool)
    (h : (check_new_species d cfg db now).1 = true ∨
      should_notify_realtime d cfg c t = true) :
    ((handle_detection d cfg db c now t sN sD).2.1 =
      if (if (check_new_species d cfg db now).1 = true then sN else sD) = true
      then set_cooldown d.scientific_name c t else c) ∧
    lookupKey (set_cooldown d.scientific_name c t) d.scientific_name = some t ∧
    (∀ kv ∈ set_cooldown d.scientific_name c t, t - 86400 < kv.2) := by
  refine ⟨?_, lookupKey_set_cooldown_self _ _ _, set_cooldown_fresh _ _ _⟩
  simp only [handle_detection]
  cases hc : (check_new_species d cfg db now).1
  · rcases h with h | h
    · rw [hc] at h
      cases h
    · simp only [Bool.false_eq_true, if_false, h, if_true]
      cases sD <;> simp
  · simp only [if_true]
    cases sN <;> simp

/-- Witness for C4: at the concrete example a successful new-species dispatch
sets the cooldown for the scientific name and a failed one leaves the store
unchanged. -/
theorem cooldown_update_on_dispatch_witness :
    (handle_detection detEx cfgEx dbEx storeEx ⟨2026, 1, 10⟩ 1000 true true).2.1 =
      set_cooldown "Cardinalis cardinalis" storeEx 1000 ∧
    (handle_detection detEx cfgEx dbEx storeEx ⟨2026, 1, 10⟩ 1000 false false).2.1 =
      storeEx := by
  constructor
  · have h := (cooldown_update_on_dispatch detEx cfgEx dbEx storeEx ⟨2026, 1, 10⟩ 1000 true true
      (Or.inl (by decide))).1
    rw [h]
    decide
  · have h := (cooldown_update_on_dispatch detEx cfgEx dbEx storeEx ⟨2026, 1, 10⟩ 1000 false false
      (Or.inl (by decide))).1
    rw [h]
    decide

/-- C5: a failed id query leaves the watermark unchanged and returns 0; an empty
batch leaves it unchanged and returns 0 (in particular after a poll that saw
everything); otherwise the batch is ascending, every id in it exceeds the old
watermark, and the final watermark is the maximum id of the batch — independent
of which ids resolve to a record and of which handlers raise. -/
theorem watermark_poll_semantics (db : List Note) (fetch : Nat → Option Detection)
    (handle_ok : Nat → Bool) (w : Nat) :
    (check_new_detections db false fetch handle_ok w = (0, w)) ∧
    ((get_new_detection_ids db w).Sorted (fun a b => a ≤ b)) ∧
    (∀ i ∈ get_new_detection_ids db w, w < i) ∧
    (get_new_detection_ids db w = [] → check_new_detections db true fetch handle_ok w = (0, w)) ∧
    ((∀ n ∈ db, n.id ≤ w) → check_new_detections db true fetch handle_ok w = (0, w)) ∧
    (get_new_detection_ids db w ≠ [] →
      (check_new_detections db true fetch handle_ok w).2 ∈ get_new_detection_ids db w ∧
      ∀ i ∈ get_new_detection_ids db w, i ≤ (check_new_detections db true fetch handle_ok w).2) := by
  have hempty : get_new_detection_ids db w = [] →
      check_new_detections db true fetch handle_ok w = (0, w) := by
    intro h
    simp [check_new_detections, h]
  refine ⟨by simp [check_new_detections], sorted_get_new_detection_ids db w, ?_, hempty, ?_, ?_⟩
  · intro i hi
    exact (mem_get_new_detection_ids.1 hi).2
  · intro hall
    apply hempty
    unfold get_new_detection_ids
    have hfil : ((db.map Note.id).filter fun i => decide (w < i)) = [] := by
      rw [List.filter_eq_nil_iff]
      intro i hi
      rcases List.mem_map.1 hi with ⟨n, hn, rfl⟩
      simpa using Nat.not_lt.2 (hall n hn)
    rw [hfil]
    rfl
  · intro hne
    rw [check_new_detections_snd]
    cases hlast : (get_new_detection_ids db w).getLast? with
    | none =>
      rw [List.getLast?_eq_none_iff] at hlast
      exact absurd hlast hne
    | some x =>
      simp only [Option.getD_some]
      refine ⟨mem_of_getLast?_eq hlast, ?_⟩
      intro i hi
      rcases getLast?_max_of_pairwise (sorted_get_new_detection_ids db w) hlast i hi with rfl | hle
      · exact le_refl _
      · exact hle

/-- Witness for C5: on the example table, from watermark 0 the batch is [7],
a poll advances the watermark to 7, an empty batch returns (0, 7), and a failed
query returns (0, 0). -/
theorem watermark_poll_semantics_witness :
    check_new_detections dbEx false (fun _ => some detEx) (fun _ => true) 0 = (0, 0) ∧
    check_new_detections dbEx true (fun _ => some detEx) (fun _ => true) 7 = (0, 7) ∧
    (check_new_detections dbEx true (fun _ => some detEx) (fun _ => true) 0).2 ∈
      get_new_detection_ids dbEx 0 := by
  refine ⟨?_, ?_, ?_⟩
  · exact (watermark_poll_semantics dbEx (fun _ => some detEx) (fun _ => true) 0).1
  · exact (watermark_poll_semantics dbEx (fun _ => some detEx) (fun _ => true) 7).2.2.2.2.1
      (by decide)
  · exact ((watermark_poll_semantics dbEx (fun _ => some detEx) (fun _ => true) 0).2.2.2.2.2
      (by decide)).1

/-- C6: when the startup max-id query succeeds the watermark is initialized to
the maximum detection id of the table, every id present at startup is at or
below it, a poll never decreases the watermark, and from any watermark at or
above the initial one no id of the startup table ever appears in a poll batch,
so pre-startup detections are never processed. -/
theorem init_watermark_excludes_history (db : List Note) (q : Bool) (hq : q = true) :
    watcher_init_last_id db q = get_max_detection_id db ∧
    (∀ n ∈ db, n.id ≤ watcher_init_last_id db q) ∧
    (∀ (db2 : List Note) (q2 : Bool) (fetch : Nat → Option Detection)
        (handle_ok : Nat → Bool) (w : Nat),
        w ≤ (check_new_detections db2 q2 fetch handle_ok w).2) ∧
    (∀ (db2 : List Note) (w : Nat), watcher_init_last_id db q ≤ w →
        ∀ n ∈ db, ∀ i ∈ get_new_detection_ids db2 w, n.id ≠ i) := by
  subst hq
  have hinit : watcher_init_last_id db true = get_max_detection_id db := rfl
  have hmax : ∀ n ∈ db, n.id ≤ get_max_detection_id db := by
    intro n hn
    exact mem_le_foldl_max _ 0 n.id (List.mem_map.2 ⟨n, hn, rfl⟩)
  refine ⟨hinit, by simpa [hinit] using hmax, ?_, ?_⟩
  · intro db2 q2 fetch handle_ok w
    cases q2 with
    | false => simp [check_new_detections]
    | true =>
      rw [check_new_detections_snd]
      cases hlast : (get_new_detection_ids db2 w).getLast? with
      | none => simp
      | some x =>
        simp only [Option.getD_some]
        exact le_of_lt (mem_get_new_detection_ids.1 (mem_of_getLast?_eq hlast)).2
  · intro db2 w hw n hn i hi
    have h1 : n.id ≤ w := le_trans (hmax n hn) (by simpa [hinit] using hw)
    have h2 : w < i := (mem_get_new_detection_ids.1 hi).2
    omega

/-- Witness for C6: on the example table the watermark starts at 7 and a fresh
batch over the same table from watermark 7 contains no startup id. -/
theorem init_watermark_excludes_history_witness :
    watcher_init_last_id dbEx true = 7 ∧
    (7 : Nat) ≤ (check_new_detections dbEx true (fun _ => some detEx) (fun _ => true) 7).2 := by
  constructor
  · rw [(init_watermark_excludes_history dbEx true rfl).1]
    decide
  · exact (init_watermark_excludes_history dbEx true rfl).2.2.1 dbEx true
      (fun _ => some detEx) (fun _ => true) 7

theorem schedule_step_of_disabled {f : String → Int → Option Int} {now : Int}
    {acc : ScheduleTable} {s : SummaryConfig} (hs : s.enabled = false) :
    schedule_step f now acc s = acc := by
  simp [schedule_step, hs]

theorem schedule_step_of_none {f : String → Int → Option Int} {now : Int}
    {acc : ScheduleTable} {s : SummaryConfig} (hs : s.enabled = true)
    (hfc : f s.cron now = none) :
    schedule_step f now acc s = acc := by
  simp [schedule_step, hs, hfc]

theorem schedule_step_of_some {f : String → Int → Option Int} {now : Int}
    {acc : ScheduleTable} {s : SummaryConfig} {t : Int} (hs : s.enabled = true)
    (hfc : f s.cron now = some t) :
    schedule_step f now acc s = dictInsert s.name t acc := by
  simp [schedule_step, hs, hfc]

theorem run_summary_of_find_none {name : String} {summaries : List SummaryConfig}
    {nr : ScheduleTable} {now : Int} {f : String → Int → Option Int} {b : Bool}
    (hfind : (summaries.find? fun s2 => decide (s2.name = name)) = none) :
    run_summary name summaries nr now f b = nr := by
  simp [run_summary, hfind]

theorem run_summary_of_cron_some {name : String} {summaries : List SummaryConfig}
    {nr : ScheduleTable} {now : Int} {f : String → Int → Option Int} {b : Bool}
    {s : SummaryConfig} {t : Int}
    (hfind : (summaries.find? fun s2 => decide (s2.name = name)) = some s)
    (hfc : f s.cron now = some t) :
    run_summary name summaries nr now f b = dictInsert name t nr := by
  simp [run_summary, hfind, hfc]

theorem run_summary_of_cron_none {name : String} {summaries : List SummaryConfig}
    {nr : ScheduleTable} {now : Int} {f : String → Int → Option Int} {b : Bool}
    {s : SummaryConfig}
    (hfind : (summaries.find? fun s2 => decide (s2.name = name)) = some s)
    (hfc : f s.cron now = none) :
    run_summary name summaries nr now f b = nr.filter fun kv => decide (kv.1 ≠ name) := by
  simp [run_summary, hfind, hfc]

theorem lookupKey_filter_self {α : Type} (n : String) (l : List (String × α)) :
    lookupKey (l.filter fun kv => decide (kv.1 ≠ n)) n = none := by
  unfold lookupKey
  rw [List.find?_eq_none.2]
  · rfl
  · intro x hx
    have h2 := (List.mem_filter.1 hx).2
    simp at h2 ⊢
    exact h2

theorem foldl_schedule_step_future {f : String → Int → Option Int} {now : Int}
    (hf : ∀ (e : String) (b r : Int), f e b = some r → b < r) :
    ∀ (l : List SummaryConfig) (acc : ScheduleTable), (∀ kv ∈ acc, now < kv.2) →
      ∀ kv ∈ l.foldl (schedule_step f now) acc, now < kv.2 := by
  intro l
  induction l with
  | nil =>
    intro acc hacc kv hkv
    exact hacc kv hkv
  | cons s t ih =>
    intro acc hacc
    rw [List.foldl_cons]
    apply ih
    intro kv hkv
    cases hs : s.enabled with
    | false =>
      rw [schedule_step_of_disabled hs] at hkv
      exact hacc kv hkv
    | true =>
      cases hfc : f s.cron now with
      | none =>
        rw [schedule_step_of_none hs hfc] at hkv
        exact hacc kv hkv
      | some t2 =>
        rw [schedule_step_of_some hs hfc] at hkv
        rcases List.mem_cons.1 hkv with rfl | hkv2
        · exact hf _ _ _ hfc
        · exact hacc kv (List.mem_filter.1 hkv2).1

theorem lookup_foldl_schedule_step_of_not_named {f : String → Int → Option Int} {now : Int}
    {n : String} :
    ∀ (l : List SummaryConfig) (acc : ScheduleTable), (∀ s ∈ l, s.name ≠ n) →
      lookupKey (l.foldl (schedule_step f now) acc) n = lookupKey acc n := by
  intro l
  induction l with
  | nil =>
    intro acc _
    rfl
  | cons s t ih =>
    intro acc hnot
    rw [List.foldl_cons, ih _ fun s2 hs2 => hnot s2 (List.mem_cons_of_mem s hs2)]
    cases hs : s.enabled with
    | false => rw [schedule_step_of_disabled hs]
    | true =>
      cases hfc : f s.cron now with
      | none => rw [schedule_step_of_none hs hfc]
      | some t2 =>
        rw [schedule_step_of_some hs hfc]
        exact lookupKey_dictInsert_ne s.name n t2 acc (Ne.symm (hnot s (by simp)))

/-- C7: assuming the cron evaluator returns triggers strictly after its anchor,
every entry of a freshly built schedule table is strictly in the future; after
a job runs its next run is recomputed the same way whether or not the body
raised; a found job with a valid cron expression is rescheduled strictly into
the future, one with an invalid expression is removed from the table while
every other entry is untouched; and at initialization (with distinct job
names) an enabled job with an invalid expression is absent from the table
while an enabled job with a valid expression is scheduled. -/
theorem schedule_table_invariants (f : String → Int → Option Int)
    (hf : ∀ (e : String) (b r : Int), f e b = some r → b < r) :
    (∀ (summaries : List SummaryConfig) (now : Int),
        ∀ kv ∈ init_schedules summaries now f, now < kv.2) ∧
    (∀ (name : String) (summaries : List SummaryConfig) (nr : ScheduleTable) (now : Int)
        (b1 b2 : Bool),
        run_summary name summaries nr now f b1 = run_summary name summaries nr now f b2) ∧
    (∀ (name : String) (summaries : List SummaryConfig) (nr : ScheduleTable) (now : Int)
        (s : SummaryConfig) (b : Bool),
        (summaries.find? fun s2 => decide (s2.name = name)) = some s →
        (∀ t : Int, f s.cron now = some t →
          run_summary name summaries nr now f b = dictInsert name t nr ∧ now < t) ∧
        (f s.cron now = none →
          lookupKey (run_summary name summaries nr now f b) name = none ∧
          ∀ m : String, m ≠ name →
            lookupKey (run_summary name summaries nr now f b) m = lookupKey nr m)) ∧
    (∀ (summaries : List SummaryConfig) (now : Int),
        (summaries.map SummaryConfig.name).Nodup →
        ∀ s ∈ summaries, s.enabled = true →
        (f s.cron now = none → lookupKey (init_schedules summaries now f) s.name = none) ∧
        (∀ t : Int, f s.cron now = some t →
          lookupKey (init_schedules summaries now f) s.name = some t)) := by
  refine ⟨?_, ?_, ?_, ?_⟩
  · intro summaries now kv hkv
    exact foldl_schedule_step_future hf summaries [] (by simp) kv hkv
  · intro name summaries nr now b1 b2
    rfl
  · intro name summaries nr now s b hfind
    constructor
    · intro t hfc
      exact ⟨run_summary_of_cron_some hfind hfc, hf _ _ _ hfc⟩
    · intro hfc
      rw [run_summary_of_cron_none hfind hfc]
      refine ⟨lookupKey_filter_self name nr, ?_⟩
      intro m hm
      exact lookupKey_filter_ne m name nr hm
  · intro summaries now hnodup s hs hsen
    obtain ⟨l1, l2, rfl⟩ := List.mem_iff_append.1 hs
    rw [List.map_append, List.map_cons, List.nodup_append] at hnodup
    obtain ⟨_, hnodup2, hdisj⟩ := hnodup
    have hl2 : ∀ s2 ∈ l2, s2.name ≠ s.name := by
      intro s2 hs2 heq
      rw [List.nodup_cons] at hnodup2
      exact hnodup2.1 (heq ▸ List.mem_map.2 ⟨s2, hs2, rfl⟩)
    have hl1 : ∀ s2 ∈ l1, s2.name ≠ s.name := by
      intro s2 hs2 heq
      exact hdisj (List.mem_map.2 ⟨s2, hs2, rfl⟩) (by simp [heq])
    have hsplit : init_schedules (l1 ++ s :: l2) now f =
        l2.foldl (schedule_step f now)
          (schedule_step f now (l1.foldl (schedule_step f now) []) s) := by
      unfold init_schedules
      rw [List.foldl_append, List.foldl_cons]
    constructor
    · intro hfc
      rw [hsplit, lookup_foldl_schedule_step_of_not_named l2 _ hl2,
        schedule_step_of_none hsen hfc,
        lookup_foldl_schedule_step_of_not_named l1 _ hl1]
      rfl
    · intro t hfc
      rw [hsplit, lookup_foldl_schedule_step_of_not_named l2 _ hl2,
        schedule_step_of_some hsen hfc]
      exact lookupKey_dictInsert_self s.name t _

/-- Witness for C7: with a cron evaluator that returns its anchor plus one
minute, the single enabled job is scheduled strictly in the future, rescheduling
is independent of the body outcome, and the job is dropped when its expression
becomes invalid. -/
theorem schedule_table_invariants_witness :
    (0 : Int) < 60 ∧
    run_summary "daily" [⟨"daily", true, "0 8 * * *"⟩] [("daily", 0)] 0
        (fun _ t => some (t + 60)) true =
      run_summary "daily" [⟨"daily", true, "0 8 * * *"⟩] [("daily", 0)] 0
        (fun _ t => some (t + 60)) false ∧
    lookupKey (run_summary "daily" [⟨"daily", true, "0 8 * * *"⟩] [("daily", 0)] 0
        (fun _ _ => none) true) "daily" = none := by
  have hf : ∀ (e : String) (b r : Int), (fun (_ : String) (t : Int) => some (t + 60)) e b = some r →
      b < r := by
    intro e b r h
    injection h with h2
    omega
  have hfnone : ∀ (e : String) (b r : Int),
      (fun (_ : String) (_ : Int) => (none : Option Int)) e b = some r → b < r := by
    intro e b r h
    cases h
  refine ⟨?_, ?_, ?_⟩
  · exact (schedule_table_invariants _ hf).1 [⟨"daily", true, "0 8 * * *"⟩] 0 ("daily", 60)
      (by decide)
  · exact (schedule_table_invariants _ hf).2.1 "daily" _ _ _ true false
  · exact (((schedule_table_invariants _ hfnone).2.2.1 "daily"
      [⟨"daily", true, "0 8 * * *"⟩] [("daily", 0)] 0 ⟨"daily", true, "0 8 * * *"⟩ true
      (by decide)).2 rfl).1

theorem check_new_species_fst_iff (d : Detection) (cfg : Config) (db : List Note) (now : DT)
    (hEn : cfg.new_species.enabled = true)
    (hConf : ¬ d.confidence < cfg.new_species.min_confidence) :
    (check_new_species d cfg db now).1 = true ↔
      ((cfg.new_species.notify_on.first_ever = true ∧
          get_species_count db d.scientific_name = 1) ∨
       (cfg.new_species.notify_on.first_of_year = true ∧
          get_species_count_since db d.scientific_name ⟨now.year, 1, 1⟩ (some d.id) = 0) ∨
       (cfg.new_species.notify_on.first_of_season = true ∧
          get_species_count_since db d.scientific_name
            (get_season_start_date cfg.seasons (get_current_season cfg.seasons now.month now.day)
              (if get_current_season cfg.seasons now.month now.day = "winter" ∧ now.month < 3
               then now.year - 1 else now.year)) (some d.id) = 0)) := by
  simp only [check_new_species, hEn, hConf, not_true_eq_false, if_false]
  split_ifs with h1 h2 h3 <;> simp_all

/-- C8 (amended): with the new_species block enabled, confidence at or above
min_confidence and pairwise-distinct season boundaries, the code's season
determination equals the reference rule — the season with the latest boundary
not after today, with the season of the overall latest boundary (winter under
the default boundaries) applying when today precedes every boundary, and the
winter year anchored to the previous calendar year before March; the
first_of_year trigger fires iff the species has no detection since January 1 of
the current year with a smaller id, and the first_of_season trigger fires iff
the species has no detection since that season start with a smaller id, each
taken in isolation from the other triggers. -/
theorem first_of_year_and_season_windows (d : Detection) (cfg : Config) (db : List Note)
    (now : DT) (hdist : distinctBoundaryKeys cfg.seasons)
    (hEn : cfg.new_species.enabled = true)
    (hConf : ¬ d.confidence < cfg.new_species.min_confidence) :
    (get_current_season cfg.seasons now.month now.day =
        spec_current_season cfg.seasons (now.month, now.day)) ∧
    (cfg.new_species.notify_on.first_of_year = true →
      ¬(cfg.new_species.notify_on.first_ever = true ∧
          get_species_count db d.scientific_name = 1) →
      ¬(cfg.new_species.notify_on.first_of_season = true ∧
          get_species_count_since db d.scientific_name (spec_season_start cfg.seasons now)
            (some d.id) = 0) →
      ((check_new_species d cfg db now).1 = true ↔
        get_species_count_since db d.scientific_name ⟨now.year, 1, 1⟩ (some d.id) = 0)) ∧
    (cfg.new_species.notify_on.first_of_season = true →
      ¬(cfg.new_species.notify_on.first_ever = true ∧
          get_species_count db d.scientific_name = 1) →
      ¬(cfg.new_species.notify_on.first_of_year = true ∧
          get_species_count_since db d.scientific_name ⟨now.year, 1, 1⟩ (some d.id) = 0) →
      ((check_new_species d cfg db now).1 = true ↔
        get_species_count_since db d.scientific_name (spec_season_start cfg.seasons now)
          (some d.id) = 0)) := by
  have hseason := get_current_season_eq_spec cfg.seasons now.month now.day hdist
  have hstart : get_season_start_date cfg.seasons
      (get_current_season cfg.seasons now.month now.day)
      (if get_current_season cfg.seasons now.month now.day = "winter" ∧ now.month < 3
       then now.year - 1 else now.year) = spec_season_start cfg.seasons now := by
    rw [hseason]
    rfl
  have hiff := check_new_species_fst_iff d cfg db now hEn hConf
  rw [hstart] at hiff
  refine ⟨hseason, ?_, ?_⟩
  · intro hyr hnot1 hnot3
    rw [hiff]
    constructor
    · rintro (h | h | h)
      · exact absurd h hnot1
      · exact h.2
      · exact absurd h hnot3
    · intro h
      exact Or.inr (Or.inl ⟨hyr, h⟩)
  · intro hsea hnot1 hnot2
    rw [hiff]
    constructor
    · rintro (h | h | h)
      · exact absurd h hnot1
      · exact absurd h hnot2
      · exact h.2
    · intro h
      exact Or.inr (Or.inr ⟨hsea, h⟩)

/-- Witness for C8 (amended): under the default boundaries the first_of_year
trigger fires for the first detection of the year of a species already seen in
the previous year. -/
theorem first_of_year_and_season_windows_witness :
    (check_new_species detW cfgW dbW ⟨2026, 1, 10⟩).1 = true := by
  have h := ((first_of_year_and_season_windows detW cfgW dbW ⟨2026, 1, 10⟩
    (by decide) rfl (by decide)).2.1 rfl (by decide) (by decide)).mpr (by decide)
  exact h

/-- Counterexample to C8 as stated: with winter configured to start on February
1 (so winter no longer carries the latest boundary), a January 15 detection is
assigned season "fall" by the code, while the claim's rule ("winter applies by
wrap-around when today precedes all boundaries", anchored to the previous year)
yields a winter window in which the species was already seen — the claim's
preconditions all hold, the check fires, yet the claim's window count is not
zero. -/
theorem first_of_season_claim_counterexample :
    cfgC8.new_species.enabled = true ∧
    ¬ detC8.confidence < cfgC8.new_species.min_confidence ∧
    cfgC8.new_species.notify_on.first_of_season = true ∧
    cfgC8.new_species.notify_on.first_ever = false ∧
    cfgC8.new_species.notify_on.first_of_year = false ∧
    ¬ (((check_new_species detC8 cfgC8 dbC8 ⟨2026, 1, 15⟩).1 = true) ↔
        get_species_count_since dbC8 "Turdus examplus"
          (claim_season_start cfgC8.seasons ⟨2026, 1, 15⟩) (some 10) = 0) := by
  decide
